import Mathlib

/-!
Shallow embedding of the `biotinker/viam-solenoid-ac` module
(`src/main.py`, `src/models/solenoid.py`).

The `Solenoid` driver keeps a binary `position`, a `board` reference, two pin
names `pin1`/`pin2`, and at most one asyncio alternation task.  We embed the
driver state as `SState`, the observable effects of every operation as event
lists, and asyncio cancellation of the alternation loop by the index of the
suspension point at which `CancelledError` is delivered.  Hardware calls that
may raise are driven by an oracle `hw : Nat → Option String` giving, for the
n-th board call of an operation, either success (`none`) or the error raised.
A second oracle `aw : Option String` gives the outcome of awaiting a
cancelled alternation task: `none` when the loop terminated with the expected
`CancelledError`, `some e` when a hardware error `e` raised by the pin-low
writes of its cleanup clause replaced it — in the source that error re-raises
at `await self.alternating_task` and is not caught there, since only
`asyncio.CancelledError` is.  Python exceptions are reified in the result
(`err` field): state mutations performed before a raise persist, exactly as
in Python.
-/

namespace SolenoidAC

/-- Python exceptions that escape the driver methods. -/
inductive PyErr
  | valueError (msg : String)
  | hwError (msg : String)
  deriving DecidableEq, Repr

/-- One board/GPIO call made by the driver (`gpio_pin_by_name` lookups and
`GPIOPin.set` writes on `pin1` / `pin2`). -/
inductive HwOp
  | lookup1
  | lookup2
  | set1 (b : Bool)
  | set2 (b : Bool)
  deriving DecidableEq, Repr

/-- Observable events of a driver method call, in program order:
storing `self.position`, cancelling / awaiting the alternation task,
hardware calls, and `asyncio.create_task` spawning a new loop. -/
inductive Ev
  | store (p : Int)
  | cancel (tid : Nat)
  | awaitTask (tid : Nat)
  | hwop (o : HwOp)
  | spawn (tid : Nat)
  deriving DecidableEq, Repr

/-- Driver state: the fields set by `__init__` / `new`.  `tasks` records every
alternation task spawned so far (`true` = still running, `false` = done);
`alternating_task` is the index of the task currently held in
`self.alternating_task`, `none` before the first spawn. -/
structure SState where
  board : Bool
  pin1 : Option String
  pin2 : Option String
  position : Int
  tasks : List Bool
  alternating_task : Option Nat
  deriving DecidableEq, Repr

/-- State after `__init__`: no board or pins bound, position 0, no task. -/
def initState : SState :=
  { board := false, pin1 := none, pin2 := none, position := 0
    tasks := [], alternating_task := none }

/-- State after `new` bound the board dependency and read `pin1`/`pin2`
from config (position untouched, still 0). -/
def newState (p1 p2 : String) : SState :=
  { initState with board := true, pin1 := some p1, pin2 := some p2 }

/-- Python truthiness of an `Optional[str]` field (`None` and `""` are falsy). -/
def truthyStr : Option String → Bool
  | none => false
  | some v => v ≠ ""

/-- The check `self.alternating_task and not self.alternating_task.done()`:
returns the task index when a handle is present and the task still runs. -/
def runningTask (s : SState) : Option Nat :=
  match s.alternating_task with
  | none => none
  | some t => if s.tasks.getD t false then some t else none

/-- State change and events of the `cancel` / `await` block shared by
`set_position` and `close`: if a task is running it is cancelled and
awaited, leaving it done; otherwise nothing happens.  Whether the await
re-raises is modelled separately by `awaitErr`, because the `except
asyncio.CancelledError: pass` around it swallows only `CancelledError`. -/
def stopExisting (s : SState) : SState × List Ev :=
  match runningTask s with
  | some t => ({ s with tasks := s.tasks.set t false },
               [Ev.cancel t, Ev.awaitTask t])
  | none => (s, [])

/-- The exception escaping the `cancel` / `await` block: when a task is
running and the cancelled loop terminated with a hardware error `e` from its
cleanup pin-low writes (oracle `aw = some e`), the `await
self.alternating_task` re-raises `e` and the surrounding `except
asyncio.CancelledError` does not catch it; when the loop ended with the
expected `CancelledError` (`aw = none`), or when no task was running so
nothing is awaited, no exception escapes. -/
def awaitErr (s : SState) (aw : Option String) : Option String :=
  match runningTask s with
  | some _ => aw
  | none => none

/-- Runs a list of board calls in order, the n-th consulting `hw (k + n)`:
returns the calls that completed and the error raised by the first failing
call, if any; calls after a failure are never attempted. -/
def runOps (hw : Nat → Option String) : Nat → List HwOp → List HwOp × Option String
  | _, [] => ([], none)
  | k, o :: rest =>
    match hw k with
    | some e => ([], some e)
    | none =>
      let r := runOps hw (k + 1) rest
      (o :: r.1, r.2)

/-- The four board calls of the `position == 0` branch of `set_position`
(and of the safety write in `close`): look both pins up, set both low. -/
def pinsLowOps : List HwOp :=
  [HwOp.lookup1, HwOp.lookup2, HwOp.set1 false, HwOp.set2 false]

/-- Result of a `set_position` call: final state (mutations persist even when
an exception is raised), events in order, and the exception if one escaped. -/
structure SPResult where
  state : SState
  evs : List Ev
  err : Option PyErr
  deriving Repr

/-- Embedding of `Solenoid.set_position`: reject values outside {0, 1} before
touching anything; store the position; cancel-and-await any running loop —
if the await re-raises a non-`CancelledError` exception it propagates here
and nothing further runs; otherwise either force both pins low (`p = 0`) or
spawn a fresh loop (`p = 1`). -/
def set_position (s : SState) (p : Int) (aw : Option String)
    (hw : Nat → Option String) : SPResult :=
  if p = 0 ∨ p = 1 then
    let s1 : SState := { s with position := p }
    let sc := stopExisting s1
    match awaitErr s1 aw with
    | some e =>
      { state := sc.1
        evs := Ev.store p :: sc.2
        err := some (PyErr.hwError e) }
    | none =>
      if p = 0 then
        let r := runOps hw 0 pinsLowOps
        { state := sc.1
          evs := Ev.store p :: sc.2 ++ r.1.map Ev.hwop
          err := r.2.map PyErr.hwError }
      else
        let t := sc.1.tasks.length
        { state := { sc.1 with tasks := sc.1.tasks ++ [true],
                               alternating_task := some t }
          evs := Ev.store p :: sc.2 ++ [Ev.spawn t]
          err := none }
  else
    { state := s, evs := [], err := some (PyErr.valueError "Position must be 0 or 1") }

/-- Embedding of `Solenoid.get_position`: returns `self.position`, state
untouched. -/
def get_position (s : SState) : Int × SState :=
  (s.position, s)

/-- Embedding of `Solenoid.get_number_of_positions`: returns 2, state
untouched. -/
def get_number_of_positions (s : SState) : Int × SState :=
  (2, s)

/-- Result of a `close` call: final state, events, the error strings logged by
the `except` clause, and the exception if one escaped. -/
structure CloseResult where
  state : SState
  evs : List Ev
  log : List String
  err : Option PyErr
  deriving Repr

/-- Embedding of `Solenoid.close`: cancel-and-await any running loop — only
`CancelledError` is caught there, so a hardware error the cancelled loop
terminated with re-raises and propagates out of `close`; otherwise, when
`board`, `pin1` and `pin2` are all truthy, attempt the four pin-low board
calls, catching and logging any raised error instead of propagating. -/
def close (s : SState) (aw : Option String) (hw : Nat → Option String) :
    CloseResult :=
  let sc := stopExisting s
  match awaitErr s aw with
  | some e =>
    { state := sc.1, evs := sc.2, log := [], err := some (PyErr.hwError e) }
  | none =>
    if sc.1.board && truthyStr sc.1.pin1 && truthyStr sc.1.pin2 then
      let r := runOps hw 0 pinsLowOps
      match r.2 with
      | some e => { state := sc.1, evs := sc.2 ++ r.1.map Ev.hwop, log := [e], err := none }
      | none => { state := sc.1, evs := sc.2 ++ r.1.map Ev.hwop, log := [], err := none }
    else
      { state := sc.1, evs := sc.2, log := [], err := none }

/-! ### The alternation loop `_alternate_pins`

The task body is a straight-line sequence of awaits: two pin-handle lookups,
then inside a `try` an infinite cycle of six awaits (set pin1 high, set pin2
low, sleep, set pin1 low, set pin2 high, sleep), with an `except
asyncio.CancelledError` clause that sets both pins low and re-raises.  We
index the suspension points from 0 and embed the loop as the function from
the index at which cancellation is delivered to the list of events that
observably happened. -/

/-- The constant `period = 1.0 / 120.0` of `_alternate_pins` (time each pin
stays high). -/
def period : ℚ := 1 / 120

/-- Events of the loop task: a board call or an `asyncio.sleep`. -/
inductive LEv
  | op (o : HwOp)
  | sleep (q : ℚ)
  deriving DecidableEq, Repr

/-- The await performed at the n-th suspension point of `_alternate_pins`:
points 0 and 1 are the pin-handle lookups (outside the `try`), and from
point 2 on the body cycles with period six. -/
def suspEv : Nat → LEv
  | 0 => LEv.op HwOp.lookup1
  | 1 => LEv.op HwOp.lookup2
  | n + 2 =>
    match n % 6 with
    | 0 => LEv.op (HwOp.set1 true)
    | 1 => LEv.op (HwOp.set2 false)
    | 2 => LEv.sleep period
    | 3 => LEv.op (HwOp.set1 false)
    | 4 => LEv.op (HwOp.set2 true)
    | _ => LEv.sleep period

/-- Trace of a loop run cancelled at suspension point `c`: the `c` completed
awaits, followed — only when the cancellation lands inside the `try`, i.e.
`2 ≤ c` — by the cleanup writes of the `except` clause.  The loop re-raises
`CancelledError` afterwards in every case. -/
def alternateTrace (c : Nat) : List LEv :=
  (List.range c).map suspEv ++
    (if 2 ≤ c then [LEv.op (HwOp.set1 false), LEv.op (HwOp.set2 false)] else [])

/-! ### Invariants about task ownership -/

/-- Every task still running is the one currently held in
`self.alternating_task`. -/
def Inv (s : SState) : Prop :=
  ∀ i, i < s.tasks.length → s.tasks.getD i false = true →
    s.alternating_task = some i

/-- At most one alternation task is active. -/
def AtMostOne (s : SState) : Prop :=
  ∀ i, i < s.tasks.length → ∀ j, j < s.tasks.length →
    s.tasks.getD i false = true → s.tasks.getD j false = true → i = j

/-- Every spawned task is done. -/
def allDone (s : SState) : Prop :=
  ∀ i, i < s.tasks.length → s.tasks.getD i false = false

instance (s : SState) : Decidable (Inv s) := by
  unfold Inv; infer_instance

instance (s : SState) : Decidable (AtMostOne s) := by
  unfold AtMostOne; infer_instance

/-! ### Helper lemmas -/

lemma getD_set_self (l : List Bool) (t : Nat) (b : Bool) (h : t < l.length) :
    (l.set t b).getD t false = b := by
  rw [List.getD_eq_getElem _ _ (by simpa using h)]
  simp

lemma getD_set_ne (l : List Bool) (t i : Nat) (b : Bool) (h : i ≠ t) :
    (l.set t b).getD i false = l.getD i false := by
  rw [List.getD_eq_getD_get?, List.getD_eq_getD_get?, List.get?_eq_getElem?,
    List.get?_eq_getElem?, List.getElem?_set_ne (Ne.symm h)]

lemma lt_length_of_getD_true (l : List Bool) (i : Nat)
    (h : l.getD i false = true) : i < l.length := by
  by_contra hge
  rw [List.getD_eq_default _ _ (Nat.le_of_not_lt hge)] at h
  exact Bool.false_ne_true h

lemma runningTask_position (s : SState) (p : Int) :
    runningTask { s with position := p } = runningTask s := rfl

lemma stopExisting_position (s : SState) :
    (stopExisting s).1.position = s.position := by
  unfold stopExisting
  cases h : runningTask s <;> simp

lemma stopExisting_fields (s : SState) :
    (stopExisting s).1.board = s.board ∧ (stopExisting s).1.pin1 = s.pin1
    ∧ (stopExisting s).1.pin2 = s.pin2
    ∧ (stopExisting s).1.alternating_task = s.alternating_task
    ∧ (stopExisting s).1.tasks.length = s.tasks.length := by
  unfold stopExisting
  cases h : runningTask s <;> simp

lemma stopExisting_of_running (s : SState) (t : Nat) (h : runningTask s = some t) :
    stopExisting s = ({ s with tasks := s.tasks.set t false },
                      [Ev.cancel t, Ev.awaitTask t]) := by
  unfold stopExisting
  rw [h]

lemma stopExisting_of_none (s : SState) (h : runningTask s = none) :
    stopExisting s = (s, []) := by
  unfold stopExisting
  rw [h]

lemma runningTask_getD (s : SState) (t : Nat) (h : runningTask s = some t) :
    s.alternating_task = some t ∧ s.tasks.getD t false = true := by
  unfold runningTask at h
  split at h
  · exact absurd h (by simp)
  · next u heq =>
    split at h
    · next hu =>
      cases h
      exact ⟨heq, hu⟩
    · exact absurd h (by simp)

lemma allDone_stopExisting (s : SState) (hinv : Inv s) :
    allDone (stopExisting s).1 := by
  cases h : runningTask s with
  | none =>
    rw [stopExisting_of_none s h]
    intro i hi
    by_contra htrue
    have hi' : s.tasks.getD i false = true := by
      cases hb : s.tasks.getD i false
      · exact absurd hb htrue
      · rfl
    have hh := hinv i hi hi'
    unfold runningTask at h
    rw [hh] at h
    simp at h
    have hi'' : s.tasks[i]?.getD false = true := by
      rw [← List.get?_eq_getElem?, ← List.getD_eq_getD_get?]
      exact hi'
    rw [hi''] at h
    simp at h
  | some t =>
    rw [stopExisting_of_running s t h]
    obtain ⟨hht, hgt⟩ := runningTask_getD s t h
    have htlt : t < s.tasks.length := lt_length_of_getD_true _ _ hgt
    intro i hi
    simp only [List.length_set] at hi
    by_cases hit : i = t
    · subst hit
      exact getD_set_self _ _ _ htlt
    · rw [getD_set_ne _ _ _ _ hit]
      by_contra htrue
      have hi' : s.tasks.getD i false = true := by
        cases hb : s.tasks.getD i false
        · exact absurd hb htrue
        · rfl
      have := hinv i hi hi'
      rw [hht] at this
      exact hit (Option.some_injective _ this).symm

lemma inv_of_allDone (s : SState) (h : allDone s) : Inv s := by
  intro i hi htrue
  rw [h i hi] at htrue
  exact absurd htrue (by simp)

lemma atMostOne_of_inv (s : SState) (h : Inv s) : AtMostOne s := by
  intro i hi j hj hti htj
  have h1 := h i hi hti
  have h2 := h j hj htj
  rw [h1] at h2
  exact Option.some_injective _ h2

lemma runOps_ok (hw : Nat → Option String) (hok : ∀ k, hw k = none) :
    ∀ (ops : List HwOp) (k : Nat), runOps hw k ops = (ops, none) := by
  intro ops
  induction ops with
  | nil => intro k; rfl
  | cons o rest ih =>
    intro k
    simp [runOps, hok k, ih (k + 1)]

lemma runOps_fail (hw : Nat → Option String) (e : String) :
    ∀ (ops : List HwOp) (n k : Nat), k < ops.length → hw (n + k) = some e →
      (∀ j, j < k → hw (n + j) = none) →
      runOps hw n ops = (ops.take k, some e) := by
  intro ops
  induction ops with
  | nil =>
    intro n k hk
    exact absurd hk (by simp)
  | cons o rest ih =>
    intro n k hk hfail hpre
    cases k with
    | zero =>
      rw [Nat.add_zero] at hfail
      simp [runOps, hfail]
    | succ k' =>
      have h0 : hw n = none := by
        have := hpre 0 (Nat.succ_pos _)
        simpa using this
      have hfail' : hw (n + 1 + k') = some e := by
        rw [show n + 1 + k' = n + (k' + 1) by omega]
        exact hfail
      have hpre' : ∀ j, j < k' → hw (n + 1 + j) = none := by
        intro j hj
        rw [show n + 1 + j = n + (j + 1) by omega]
        exact hpre (j + 1) (by omega)
      have hk' : k' < rest.length := by simpa using hk
      simp [runOps, h0, ih n.succ k' hk' hfail' hpre']

lemma awaitErr_of_running (s : SState) (t : Nat) (aw : Option String)
    (h : runningTask s = some t) : awaitErr s aw = aw := by
  unfold awaitErr
  rw [h]

lemma awaitErr_of_no_task (s : SState) (aw : Option String)
    (h : runningTask s = none) : awaitErr s aw = none := by
  unfold awaitErr
  rw [h]

lemma awaitErr_none (s : SState) : awaitErr s none = none := by
  unfold awaitErr
  split <;> rfl

lemma awaitErr_position (s : SState) (p : Int) (aw : Option String) :
    awaitErr { s with position := p } aw = awaitErr s aw := rfl

lemma runningTask_stopExisting (s : SState) :
    runningTask (stopExisting s).1 = none := by
  cases h : runningTask s with
  | none =>
    rw [stopExisting_of_none s h]
    exact h
  | some t =>
    rw [stopExisting_of_running s t h]
    obtain ⟨hht, hgt⟩ := runningTask_getD s t h
    have htlt : t < s.tasks.length := lt_length_of_getD_true _ _ hgt
    unfold runningTask
    rw [hht]
    have hset : (s.tasks.set t false)[t]?.getD false = false := by
      rw [← List.get?_eq_getElem?, ← List.getD_eq_getD_get?]
      exact getD_set_self _ _ _ htlt
    simp [hset]

lemma set_position_state_zero (s : SState) (aw : Option String)
    (hw : Nat → Option String) :
    (set_position s 0 aw hw).state = (stopExisting { s with position := 0 }).1 := by
  cases h : awaitErr { s with position := (0 : Int) } aw with
  | none => simp [set_position, h]
  | some e => simp [set_position, h]

lemma set_position_state_one_ok (s : SState) (aw : Option String)
    (hw : Nat → Option String)
    (h : awaitErr { s with position := (1 : Int) } aw = none) :
    (set_position s 1 aw hw).state
      = { (stopExisting { s with position := 1 }).1 with
          tasks := (stopExisting { s with position := 1 }).1.tasks ++ [true],
          alternating_task :=
            some (stopExisting { s with position := 1 }).1.tasks.length } := by
  simp [set_position, h]

lemma set_position_state_one_err (s : SState) (aw : Option String)
    (hw : Nat → Option String) (e : String)
    (h : awaitErr { s with position := (1 : Int) } aw = some e) :
    (set_position s 1 aw hw).state = (stopExisting { s with position := 1 }).1 := by
  simp [set_position, h]

lemma set_position_state_invalid (s : SState) (p : Int) (aw : Option String)
    (hw : Nat → Option String)
    (h0 : p ≠ 0) (h1 : p ≠ 1) : (set_position s p aw hw).state = s := by
  simp [set_position, h0, h1]

lemma close_state (s : SState) (aw : Option String) (hw : Nat → Option String) :
    (close s aw hw).state = (stopExisting s).1 := by
  simp only [close]
  split
  · rfl
  · split
    · split <;> rfl
    · rfl

lemma close_err_of_awaitErr_none (s : SState) (aw : Option String)
    (hw : Nat → Option String) (haw : awaitErr s aw = none) :
    (close s aw hw).err = none := by
  simp only [close, haw]
  split
  · split <;> rfl
  · rfl

lemma inv_append_true (s : SState) (hall : allDone s) :
    Inv { s with tasks := s.tasks ++ [true],
                 alternating_task := some s.tasks.length } := by
  intro i hi htrue
  simp only [List.length_append, List.length_cons, List.length_nil] at hi
  by_cases hlt : i < s.tasks.length
  · rw [List.getD_append _ _ _ _ hlt] at htrue
    rw [hall i hlt] at htrue
    exact absurd htrue (by simp)
  · have hieq : i = s.tasks.length := by omega
    subst hieq
    rfl

lemma close_evs_noguard (s : SState) (aw : Option String)
    (hw : Nat → Option String)
    (hguard : (s.board && truthyStr s.pin1 && truthyStr s.pin2) = false) :
    (close s aw hw).evs = (stopExisting s).2 := by
  have hf := stopExisting_fields s
  simp only [close]
  split
  · rfl
  · rw [hf.1, hf.2.1, hf.2.2.1, hguard]
    simp

lemma close_log_fail (s : SState) (aw : Option String)
    (hw : Nat → Option String) (e : String)
    (haw : awaitErr s aw = none) (hfail : hw 0 = some e)
    (hguard : (s.board && truthyStr s.pin1 && truthyStr s.pin2) = true) :
    (close s aw hw).log = [e] := by
  have hf := stopExisting_fields s
  have hrun : runOps hw 0 pinsLowOps = ([], some e) := by
    simp [runOps, pinsLowOps, hfail]
  simp only [close, haw]
  rw [hf.1, hf.2.1, hf.2.2.1, hguard]
  simp [hrun]

/-! ### Claim theorems -/

/-- C8: on a freshly constructed driver `get_position` returns 0 (both right
after `__init__` and after `new` bound the board and pins),
`get_number_of_positions` returns 2 in every state, and both methods are pure
reads that leave the driver state unchanged. -/
theorem fresh_driver_reads :
    (get_position initState).1 = 0
    ∧ (∀ p1 p2, (get_position (newState p1 p2)).1 = 0)
    ∧ (∀ s, (get_number_of_positions s).1 = 2)
    ∧ (∀ s, (get_position s).2 = s ∧ (get_number_of_positions s).2 = s) :=
  ⟨rfl, fun _ _ => rfl, fun _ => rfl, fun _ => ⟨rfl, rfl⟩⟩

/-- C4: for every value outside {0, 1}, `set_position` raises `ValueError`
synchronously, leaves the state (hence `get_position`) unchanged, and
performs no event at all — no hardware call, no task cancellation. -/
theorem set_position_invalid (s : SState) (p : Int) (aw : Option String)
    (hw : Nat → Option String)
    (h0 : p ≠ 0) (h1 : p ≠ 1) :
    set_position s p aw hw
      = { state := s, evs := [],
          err := some (PyErr.valueError "Position must be 0 or 1") }
    ∧ (get_position (set_position s p aw hw).state).1 = (get_position s).1 := by
  constructor
  · simp [set_position, h0, h1]
  · simp [set_position, h0, h1, get_position]

/-- C4 witness: `set_position 2` on the fresh driver raises `ValueError` and
changes nothing. -/
theorem set_position_invalid_witness :
    set_position initState 2 none (fun _ => none)
      = { state := initState, evs := [],
          err := some (PyErr.valueError "Position must be 0 or 1") }
    ∧ (get_position (set_position initState 2 none (fun _ => none)).state).1
      = (get_position initState).1 :=
  set_position_invalid initState 2 none (fun _ => none) (by decide) (by decide)

/-- C10: for p in {0, 1}, `set_position` stores the new position first — the
store is the very first event, before any cancellation or pin operation — so
the final state carries position p even when a later hardware call raises,
and `get_position` then returns the new target. -/
theorem set_position_stores_first (s : SState) (p : Int) (aw : Option String)
    (hw : Nat → Option String) (hp : p = 0 ∨ p = 1) :
    (set_position s p aw hw).state.position = p
    ∧ (∃ rest, (set_position s p aw hw).evs = Ev.store p :: rest)
    ∧ (get_position (set_position s p aw hw).state).1 = p := by
  rcases hp with rfl | rfl
  · cases haw : awaitErr { s with position := (0 : Int) } aw with
    | some e =>
      refine ⟨?_, ⟨(stopExisting { s with position := 0 }).2, ?_⟩, ?_⟩ <;>
        simp [set_position, get_position, haw, stopExisting_position]
    | none =>
      refine ⟨?_, ⟨(stopExisting { s with position := 0 }).2
          ++ (runOps hw 0 pinsLowOps).1.map Ev.hwop, ?_⟩, ?_⟩ <;>
        simp [set_position, get_position, haw, stopExisting_position]
  · cases haw : awaitErr { s with position := (1 : Int) } aw with
    | some e =>
      refine ⟨?_, ⟨(stopExisting { s with position := 1 }).2, ?_⟩, ?_⟩ <;>
        simp [set_position, get_position, haw, stopExisting_position]
    | none =>
      refine ⟨?_, ⟨(stopExisting { s with position := 1 }).2
          ++ [Ev.spawn (stopExisting { s with position := 1 }).1.tasks.length],
          ?_⟩, ?_⟩ <;>
        simp [set_position, get_position, haw, stopExisting_position]

/-- C10 witness: after `set_position 0` on a driver whose pin1 lookup raises,
the stored position is already 0. -/
theorem set_position_stores_first_witness :
    (set_position (newState "11" "13") 0 none
        (fun _ => some "io")).state.position = 0
    ∧ (∃ rest, (set_position (newState "11" "13") 0 none
        (fun _ => some "io")).evs = Ev.store 0 :: rest)
    ∧ (get_position (set_position (newState "11" "13") 0 none
        (fun _ => some "io")).state).1 = 0 :=
  set_position_stores_first (newState "11" "13") 0 none (fun _ => some "io")
    (Or.inl rfl)

/-- C5: with succeeding hardware, `set_position 0` always ends by setting
both pins low (looking both up first), also when no loop was running; and
`set_position 1` spawns a fresh alternation loop task and retains its handle
in `alternating_task`. -/
theorem set_position_branches (s : SState) (hw : Nat → Option String)
    (hok : ∀ k, hw k = none) :
    (∃ pre, (set_position s 0 none hw).evs
        = Ev.store 0 :: pre ++ [Ev.hwop HwOp.lookup1, Ev.hwop HwOp.lookup2,
            Ev.hwop (HwOp.set1 false), Ev.hwop (HwOp.set2 false)])
    ∧ (runningTask s = none →
        (set_position s 0 none hw).evs
          = [Ev.store 0, Ev.hwop HwOp.lookup1, Ev.hwop HwOp.lookup2,
             Ev.hwop (HwOp.set1 false), Ev.hwop (HwOp.set2 false)])
    ∧ (∃ t, (set_position s 1 none hw).state.alternating_task = some t
        ∧ (set_position s 1 none hw).state.tasks.getD t false = true
        ∧ (set_position s 1 none hw).evs
          = Ev.store 1 :: (stopExisting { s with position := 1 }).2
              ++ [Ev.spawn t]) := by
  refine ⟨⟨(stopExisting { s with position := 0 }).2, ?_⟩, ?_, ?_⟩
  · simp [set_position, awaitErr_none, runOps_ok hw hok, pinsLowOps]
  · intro hnone
    have h0 : runningTask { s with position := (0 : Int) } = none := by
      rw [runningTask_position]; exact hnone
    simp [set_position, awaitErr_none, runOps_ok hw hok, pinsLowOps,
      stopExisting_of_none _ h0]
  · refine ⟨(stopExisting { s with position := 1 }).1.tasks.length, ?_, ?_, ?_⟩
    · simp [set_position, awaitErr_none]
    · simp only [set_position, awaitErr_none]
      norm_num
    · simp [set_position, awaitErr_none]

/-- C5 witness: concrete run on a fresh bound driver with all hardware calls
succeeding. -/
theorem set_position_branches_witness :
    (∃ pre, (set_position (newState "11" "13") 0 none (fun _ => none)).evs
        = Ev.store 0 :: pre ++ [Ev.hwop HwOp.lookup1, Ev.hwop HwOp.lookup2,
            Ev.hwop (HwOp.set1 false), Ev.hwop (HwOp.set2 false)])
    ∧ (runningTask (newState "11" "13") = none →
        (set_position (newState "11" "13") 0 none (fun _ => none)).evs
          = [Ev.store 0, Ev.hwop HwOp.lookup1, Ev.hwop HwOp.lookup2,
             Ev.hwop (HwOp.set1 false), Ev.hwop (HwOp.set2 false)])
    ∧ (∃ t, (set_position (newState "11" "13") 1 none
            (fun _ => none)).state.alternating_task = some t
        ∧ (set_position (newState "11" "13") 1 none
            (fun _ => none)).state.tasks.getD t false = true
        ∧ (set_position (newState "11" "13") 1 none (fun _ => none)).evs
          = Ev.store 1
              :: (stopExisting { newState "11" "13" with position := 1 }).2
              ++ [Ev.spawn t]) :=
  set_position_branches (newState "11" "13") (fun _ => none) (fun _ => rfl)

/-- C1: for a valid target, whenever an alternation task is running,
`set_position` cancels it and awaits it immediately after storing the
position — every pin operation and every spawn comes after, whatever the
awaited outcome — and both `set_position` (for any argument and any await
outcome) and `close` preserve the ownership invariant, so at most one
alternation task is ever active per driver. -/
theorem set_position_cancellation_first (s : SState) (p : Int)
    (aw : Option String) (hw : Nat → Option String) (hinv : Inv s) :
    (∀ t, (p = 0 ∨ p = 1) → runningTask s = some t →
      ∃ rest, (set_position s p aw hw).evs
        = Ev.store p :: Ev.cancel t :: Ev.awaitTask t :: rest)
    ∧ Inv (set_position s p aw hw).state
    ∧ AtMostOne (set_position s p aw hw).state
    ∧ Inv (close s aw hw).state
    ∧ AtMostOne (close s aw hw).state := by
  have hinvp : ∀ q : Int, Inv { s with position := q } := fun _ => hinv
  have hInvSP : Inv (set_position s p aw hw).state := by
    by_cases h0 : p = 0
    · subst h0
      rw [set_position_state_zero]
      exact inv_of_allDone _ (allDone_stopExisting _ (hinvp 0))
    by_cases h1 : p = 1
    · subst h1
      cases haw : awaitErr { s with position := (1 : Int) } aw with
      | some e =>
        rw [set_position_state_one_err s aw hw e haw]
        exact inv_of_allDone _ (allDone_stopExisting _ (hinvp 1))
      | none =>
        rw [set_position_state_one_ok s aw hw haw]
        exact inv_append_true _ (allDone_stopExisting _ (hinvp 1))
    · rw [set_position_state_invalid s p aw hw h0 h1]
      exact hinv
  have hInvCl : Inv (close s aw hw).state := by
    rw [close_state]
    exact inv_of_allDone _ (allDone_stopExisting _ hinv)
  refine ⟨?_, hInvSP, atMostOne_of_inv _ hInvSP, hInvCl, atMostOne_of_inv _ hInvCl⟩
  intro t hp ht
  have ht1 : runningTask { s with position := p } = some t := by
    rw [runningTask_position]
    exact ht
  have haw := awaitErr_of_running { s with position := p } t aw ht1
  rcases hp with rfl | rfl
  · cases aw with
    | none =>
      exact ⟨(runOps hw 0 pinsLowOps).1.map Ev.hwop, by
        simp [set_position, stopExisting_of_running _ _ ht1, haw]⟩
    | some e =>
      exact ⟨[], by
        simp [set_position, stopExisting_of_running _ _ ht1, haw]⟩
  · cases aw with
    | none =>
      exact ⟨[Ev.spawn (s.tasks.set t false).length], by
        simp [set_position, stopExisting_of_running _ _ ht1, haw]⟩
    | some e =>
      exact ⟨[], by
        simp [set_position, stopExisting_of_running _ _ ht1, haw]⟩

/-- Driver with a bound board, both pins, and a running alternation task. -/
def sWit : SState :=
  { board := true, pin1 := some "11", pin2 := some "13", position := 1,
    tasks := [true], alternating_task := some 0 }

/-- C1 witness: a second `set_position 1` on a driver with a running loop
cancels and awaits the old loop first. -/
theorem set_position_cancellation_first_witness :
    (∀ t, ((1 : Int) = 0 ∨ (1 : Int) = 1) → runningTask sWit = some t →
      ∃ rest, (set_position sWit 1 none (fun _ => none)).evs
        = Ev.store 1 :: Ev.cancel t :: Ev.awaitTask t :: rest)
    ∧ Inv (set_position sWit 1 none (fun _ => none)).state
    ∧ AtMostOne (set_position sWit 1 none (fun _ => none)).state
    ∧ Inv (close sWit none (fun _ => none)).state
    ∧ AtMostOne (close sWit none (fun _ => none)).state :=
  set_position_cancellation_first sWit 1 none (fun _ => none) (by decide)

/-- C3 counterexample: `close` can raise to its caller.  On a driver with a
running alternation task whose cancelled loop terminated with the hardware
error "io gone" (raised by the pin-low writes of its cleanup clause), the
`await self.alternating_task` inside `close` re-raises that error; only
`asyncio.CancelledError` is caught there, so `close` propagates it — its
error slot is not `none` — without attempting the safety writes. -/
theorem close_raises_after_cleanup_error :
    (close sWit (some "io gone") (fun _ => none)).err
      = some (PyErr.hwError "io gone")
    ∧ ¬ (close sWit (some "io gone") (fun _ => none)).err = none := by
  constructor
  · rfl
  · intro h
    simp [close, sWit, runningTask, stopExisting, awaitErr] at h

/-- C3 (amended): `close` never raises provided any cancelled alternation
loop terminated with the expected `CancelledError`: then every error from
the pin-low safety writes of `close` itself is caught and logged, not
propagated; `close` skips the writes silently when board or pin fields were
never set (falsy); closing the never-configured fresh driver does nothing;
and a second `close`, whatever the oracles, never raises, because the first
one left no running task.  When the cancelled loop instead terminated with a
hardware error, that error re-raises at `await self.alternating_task`, is
not caught (only `CancelledError` is), and propagates out of `close` before
any safety write. -/
theorem close_error_containment (s : SState) (aw : Option String)
    (hw : Nat → Option String) :
    (awaitErr s aw = none → (close s aw hw).err = none)
    ∧ (∀ t e, runningTask s = some t → aw = some e →
        (close s aw hw).err = some (PyErr.hwError e)
        ∧ (close s aw hw).evs = [Ev.cancel t, Ev.awaitTask t])
    ∧ (∀ aw2 hw2, (close (close s aw hw).state aw2 hw2).err = none)
    ∧ close initState aw hw
        = { state := initState, evs := [], log := [], err := none }
    ∧ ((s.board && truthyStr s.pin1 && truthyStr s.pin2) = false →
        ∀ o, Ev.hwop o ∉ (close s aw hw).evs)
    ∧ (∀ e, awaitErr s aw = none → hw 0 = some e →
        (s.board && truthyStr s.pin1 && truthyStr s.pin2) = true →
        (close s aw hw).log = [e]) := by
  refine ⟨fun haw => close_err_of_awaitErr_none s aw hw haw, ?_, ?_, ?_, ?_, ?_⟩
  · intro t e ht hawe
    subst hawe
    have haw : awaitErr s (some e) = some e := awaitErr_of_running s t _ ht
    constructor <;> simp [close, haw, stopExisting_of_running s t ht]
  · intro aw2 hw2
    have hrt : runningTask (close s aw hw).state = none := by
      rw [close_state]
      exact runningTask_stopExisting s
    exact close_err_of_awaitErr_none _ aw2 hw2
      (awaitErr_of_no_task _ aw2 hrt)
  · have hrt : runningTask initState = none := rfl
    have haw : awaitErr initState aw = none := awaitErr_of_no_task _ aw hrt
    have hstop : stopExisting initState = (initState, []) :=
      stopExisting_of_none _ hrt
    simp only [close, haw, hstop]
    rfl
  · intro hguard o
    rw [close_evs_noguard s aw hw hguard]
    cases h : runningTask s with
    | none => rw [stopExisting_of_none _ h]; simp
    | some t => rw [stopExisting_of_running _ _ h]; simp
  · intro e haw hfail hguard
    exact close_log_fail s aw hw e haw hfail hguard

/-- Hardware behaviour whose very first board call raises. -/
def hwFail0 : Nat → Option String := fun k => if k = 0 then some "boom" else none

/-- C3 witness: with the cancelled loop having ended in `CancelledError`,
closing a driver whose first safety write raises still returns normally and
logs the error; and a second `close` after a raising one returns normally. -/
theorem close_error_containment_witness :
    (close sWit none hwFail0).err = none
    ∧ (close sWit none hwFail0).log = ["boom"]
    ∧ (close (close sWit (some "io gone") (fun _ => none)).state
        (some "io gone") (fun _ => none)).err = none :=
  ⟨(close_error_containment sWit none hwFail0).1 (by decide),
   (close_error_containment sWit none hwFail0).2.2.2.2.2 "boom" (by decide)
     (by decide) (by decide),
   (close_error_containment sWit (some "io gone") (fun _ => none)).2.2.1
     (some "io gone") (fun _ => none)⟩

/-- C7: a hardware error raised by the k-th pin operation of
`set_position 0` propagates to the caller unmodified — the resulting error is
exactly the raised message — with the earlier operations attempted exactly
once and nothing after the failure attempted (no retry), while the same
hardware behaviour under `close` is swallowed. -/
theorem set_position_hw_error_propagates (s : SState) (hw : Nat → Option String)
    (k : Nat) (e : String) (hk : k < pinsLowOps.length)
    (hfail : hw k = some e) (hpre : ∀ j, j < k → hw j = none) :
    (set_position s 0 none hw).err = some (PyErr.hwError e)
    ∧ (set_position s 0 none hw).evs
      = Ev.store 0 :: (stopExisting { s with position := 0 }).2
          ++ (pinsLowOps.take k).map Ev.hwop
    ∧ (close s none hw).err = none := by
  have hrun : runOps hw 0 pinsLowOps = (pinsLowOps.take k, some e) :=
    runOps_fail hw e pinsLowOps 0 k hk (by simpa using hfail)
      (by simpa using hpre)
  refine ⟨?_, ?_, close_err_of_awaitErr_none s none hw (awaitErr_none s)⟩
  · simp [set_position, awaitErr_none, hrun]
  · simp [set_position, awaitErr_none, hrun]

/-- Hardware behaviour whose third board call raises an I/O error. -/
def hwFail2 : Nat → Option String := fun n => if n = 2 then some "io error" else none

/-- C7 witness: the pin1-low write failing inside `set_position 0` surfaces
the exact error; the two lookups before it ran, the pin2-low write did not;
`close` under the same behaviour swallows the error. -/
theorem set_position_hw_error_propagates_witness :
    (set_position (newState "11" "13") 0 none hwFail2).err
      = some (PyErr.hwError "io error")
    ∧ (set_position (newState "11" "13") 0 none hwFail2).evs
      = Ev.store 0 :: (stopExisting { newState "11" "13" with position := 0 }).2
          ++ (pinsLowOps.take 2).map Ev.hwop
    ∧ (close (newState "11" "13") none hwFail2).err = none :=
  set_position_hw_error_propagates (newState "11" "13") hwFail2 2 "io error"
    (by decide) (by decide) (by decide)

/-- C2 counterexample: the two pin-handle lookups at the top of
`_alternate_pins` are suspension points that sit before the `try`, so a
cancellation delivered at the very first suspension point terminates the
loop with no pin write at all — in particular without the two pin-low
cleanup writes the claim requires. -/
theorem alternate_pins_cancel_during_lookup :
    alternateTrace 0 = []
    ∧ ¬ [LEv.op (HwOp.set1 false), LEv.op (HwOp.set2 false)]
        <:+ alternateTrace 0 := by
  constructor
  · rfl
  · intro h
    have := h.length_le
    simp [alternateTrace] at this

/-- C2 (amended): whenever cancellation is observed at a suspension point of
the loop body — any pin-set or sleep, i.e. any point from index 2 on, after
the two initial pin-handle lookups — the loop sets pin1 low then pin2 low as
its final two events before terminating. -/
theorem alternate_pins_cleanup_in_body (c : Nat) (h : 2 ≤ c) :
    alternateTrace c
      = (List.range c).map suspEv
          ++ [LEv.op (HwOp.set1 false), LEv.op (HwOp.set2 false)]
    ∧ [LEv.op (HwOp.set1 false), LEv.op (HwOp.set2 false)]
        <:+ alternateTrace c := by
  have he : alternateTrace c
      = (List.range c).map suspEv
          ++ [LEv.op (HwOp.set1 false), LEv.op (HwOp.set2 false)] := by
    unfold alternateTrace
    rw [if_pos h]
  exact ⟨he, ⟨(List.range c).map suspEv, he.symm⟩⟩

/-- C2 witness: cancellation delivered during the first sleep (suspension
point 4) still ends the trace with both pin-low writes. -/
theorem alternate_pins_cleanup_in_body_witness :
    alternateTrace 4
      = (List.range 4).map suspEv
          ++ [LEv.op (HwOp.set1 false), LEv.op (HwOp.set2 false)]
    ∧ [LEv.op (HwOp.set1 false), LEv.op (HwOp.set2 false)]
        <:+ alternateTrace 4 :=
  alternate_pins_cleanup_in_body 4 (by decide)

/-- C6: every cycle of the running loop performs exactly, in order: pin1
high, pin2 low, sleep one half-period, pin1 low, pin2 high, sleep the same
half-period; the body is periodic with period six suspension points; and the
half-period constant is exactly 1/120 second, i.e. 60 full cycles per
second. -/
theorem alternate_pins_sixty_hz :
    (∀ k, (List.range' (2 + 6 * k) 6).map suspEv =
      [LEv.op (HwOp.set1 true), LEv.op (HwOp.set2 false), LEv.sleep period,
       LEv.op (HwOp.set1 false), LEv.op (HwOp.set2 true), LEv.sleep period])
    ∧ (∀ n, suspEv (n + 2 + 6) = suspEv (n + 2))
    ∧ period = 1 / 120
    ∧ 60 * (2 * period) = 1 := by
  refine ⟨?_, ?_, rfl, by norm_num [period]⟩
  · intro k
    have hr : List.range' (2 + 6 * k) 6
        = [2+6*k, 2+6*k+1, 2+6*k+2, 2+6*k+3, 2+6*k+4, 2+6*k+5] := rfl
    rw [hr]
    rw [show 2+6*k+5 = 6*k+5+2 by omega, show 2+6*k+4 = 6*k+4+2 by omega,
      show 2+6*k+3 = 6*k+3+2 by omega, show 2+6*k+2 = 6*k+2+2 by omega,
      show 2+6*k+1 = 6*k+1+2 by omega, show 2+6*k = 6*k+2 by omega]
    simp [suspEv, Nat.mul_mod_right, Nat.mul_add_mod]
  · intro n
    rw [show n + 2 + 6 = (n + 6) + 2 by omega]
    simp [suspEv, Nat.add_mod_right]

/-! ### The static driver variant (C9)

Modelled from the spec: the repository `src/` holds only the alternating
variant (`models/solenoid.py`); the static variant (`control_pin`,
`pwm_pin`, `pwm_frequency`) named by the spec is not among the source files,
so its pin sequencing is taken from spec sections 4.3 and 8.3. -/

/-- Pin operations of the static variant: a digital write on `control_pin`,
a frequency set or a duty-cycle set on `pwm_pin`. -/
inductive StaticEv
  | controlSet (b : Bool)
  | pwmFrequency (hz : Int)
  | pwmDuty (d : ℚ)
  deriving DecidableEq, Repr

/-- Static-variant driver state: stored position and the configured,
immutable `pwm_frequency` (default 60). -/
structure StaticState where
  position : Int
  pwm_frequency : Int
  deriving DecidableEq, Repr

/-- Modelled from the spec: `set_position` of the static variant — reject
values outside {0, 1}, store the position, then for 1 drive the control pin
high, set the PWM frequency, set duty 0.5, in that order; for 0 drive the
control pin low then set duty 0.0. -/
def staticSetPosition (s : StaticState) (p : Int) :
    StaticState × List StaticEv × Option PyErr :=
  if p = 0 ∨ p = 1 then
    if p = 0 then
      ({ s with position := 0 },
       [StaticEv.controlSet false, StaticEv.pwmDuty 0], none)
    else
      ({ s with position := 1 },
       [StaticEv.controlSet true, StaticEv.pwmFrequency s.pwm_frequency,
        StaticEv.pwmDuty (1/2)], none)
  else
    (s, [], some (PyErr.valueError "Position must be 0 or 1"))

/-- C9: for the static variant, `set_position 1` drives the control pin high,
then sets the PWM frequency to the configured value, then sets duty 0.5, in
that order; its `set_position 0` drives the control pin low then sets duty
0.0. -/
theorem static_variant_sequencing :
    (∀ s : StaticState,
      (staticSetPosition s 1).2.1
        = [StaticEv.controlSet true, StaticEv.pwmFrequency s.pwm_frequency,
           StaticEv.pwmDuty (1/2)]
      ∧ (staticSetPosition s 1).1.position = 1)
    ∧ (∀ s : StaticState,
      (staticSetPosition s 0).2.1
        = [StaticEv.controlSet false, StaticEv.pwmDuty 0]
      ∧ (staticSetPosition s 0).1.position = 0) :=
  ⟨fun _ => ⟨rfl, rfl⟩, fun _ => ⟨rfl, rfl⟩⟩

end SolenoidAC
